import Mathlib

/-!
# Event registration: the seat-booking core

A shallow embedding of the booking core of the Eventregistration backend:

* `internal/models/models.go`: `Event`, `Registration`, `RegistrationStatus`;
* `internal/repositories/event_repository.go`: `IncrementRegistered`;
* `internal/repositories/registration_repository.go`: `FindByUserAndEvent`, `Create`;
* `internal/services/booking_service.go`: `Book`.

The database is an explicit value, `Store`: the rows of the `events` table and the rows
of the `registrations` table.  Every query the Go code sends through gorm is a function on
that value.  What the code cannot control (a statement failing in the storage engine, the
random identifier drawn by `uuid.New`) is an explicit input, `Env`, one per call of `Book`.

Calls are executed one after another: the per-event mutex taken at the top of `Book` has no
effect on a sequential execution and is not part of the state.  Logging is left out.
-/

namespace Eventregistration

/-! ## Errors -/

/-- Go error values met by the booking core.  The first two are the sentinels of
`booking_service.go`, the third is gorm's sentinel, `uniqueViolation` and `storage` are the
errors a driver reports, and `wrap msg cause` is `fmt.Errorf(msg + ": %w", cause)`. -/
inductive Err where
  | ErrEventFull : Err
  | ErrDuplicateBooking : Err
  | ErrRecordNotFound : Err
  | uniqueViolation (index : String) : Err
  | storage (detail : String) : Err
  | wrap (msg : String) (cause : Err) : Err
deriving DecidableEq, Repr

/-- Go `errors.Is(err, target)`: `err` or one of the errors it wraps is `target`. -/
def errorsIs : Err → Err → Bool
  | .wrap msg cause, target => (Err.wrap msg cause == target) || errorsIs cause target
  | err, target => err == target

/-! ## Data model (`models.go`) -/

/-- Go `type RegistrationStatus string`. -/
abbrev RegistrationStatus := String

/-- Go `StatusConfirmed`. -/
def StatusConfirmed : RegistrationStatus := "confirmed"

/-- Go `StatusCancelled`. -/
def StatusCancelled : RegistrationStatus := "cancelled"

/-- A row of the `events` table: the columns of `models.Event` without the time stamps and
the preloaded associations, which the booking core neither reads nor writes. -/
structure Event where
  ID : String
  Title : String
  Description : String
  Capacity : Int
  Registered : Int
  OrganizerID : String
deriving DecidableEq, Repr

/-- A row of the `registrations` table: the columns of `models.Registration` without the
time stamps and the preloaded associations. -/
structure Registration where
  ID : String
  UserID : String
  EventID : String
  Status : RegistrationStatus
deriving DecidableEq, Repr

/-- Go `int` arithmetic on a 64-bit platform: a result outside `[-2^63, 2^63)` wraps
around. -/
def wrapInt (x : Int) : Int := (x + 2 ^ 63) % 2 ^ 64 - 2 ^ 63

/-- Go `(*Event).AvailableSeats`: `e.Capacity - e.Registered` in Go `int`. -/
def Event.AvailableSeats (e : Event) : Int := wrapInt (e.Capacity - e.Registered)

/-- Go `(*Registration).BeforeCreate`: an empty `ID` is replaced by a new uuid. -/
def Registration.BeforeCreate (r : Registration) (uuid : String) : Registration :=
  if r.ID == "" then { r with ID := uuid } else r

/-- The database: the rows of both tables, in storage order. -/
structure Store where
  events : List Event
  registrations : List Registration
deriving DecidableEq, Repr

/-- What a call of `Book` takes from outside the program: the identifier `uuid.New` draws
for the new row, and for each statement sent to the database the error with which the
storage engine fails it, if it does (`none`: the statement runs). -/
structure Env where
  uuid : String
  lookupErr : Option Err
  beginErr : Option Err
  lockErr : Option Err
  updateErr : Option Err
  createErr : Option Err
  commitErr : Option Err
deriving DecidableEq, Repr

/-- An environment in which no statement fails. -/
def Env.ok (uuid : String) : Env :=
  { uuid := uuid, lookupErr := none, beginErr := none, lockErr := none,
    updateErr := none, createErr := none, commitErr := none }

/-! ## Registration repository -/

/-- The `WHERE user_id = ? AND event_id = ? AND status = ?` predicate. -/
def matchesUserEvent (userID eventID : String) (status : RegistrationStatus)
    (r : Registration) : Bool :=
  r.UserID == userID && r.EventID == eventID && r.Status == status

/-- Go `registrationRepository.FindByUserAndEvent`: the first confirmed row of the user for
the event, `ErrRecordNotFound` when there is none, the query's error when it fails. -/
def FindByUserAndEvent (env : Env) (db : Store) (userID eventID : String) :
    Except Err Registration :=
  match env.lookupErr with
  | some err => .error err
  | none =>
    match db.registrations.find? (matchesUserEvent userID eventID StatusConfirmed) with
    | some reg => .ok reg
    | none => .error Err.ErrRecordNotFound

/-- Go `registrationRepository.Create`: `tx.Create(reg)`.  The `BeforeCreate` hook fills in
the identifier, then the row is inserted unless the statement fails, the primary key is
taken, or the unique index `idx_user_event_status` over (user, event, status) has the triple
already.  Returns the transaction's store and the row as written back into `reg`. -/
def Create (env : Env) (tx : Store) (reg : Registration) : Except Err (Store × Registration) :=
  match env.createErr with
  | some err => .error err
  | none =>
    let row := reg.BeforeCreate env.uuid
    if tx.registrations.any (fun r => r.ID == row.ID) then
      .error (Err.uniqueViolation "registrations_pkey")
    else if tx.registrations.any (matchesUserEvent row.UserID row.EventID row.Status) then
      .error (Err.uniqueViolation "idx_user_event_status")
    else
      .ok ({ tx with registrations := tx.registrations ++ [row] }, row)

/-! ## Event repository -/

/-- The row `First(&e, "id = ?", eventID)` reads. -/
def firstEvent (tx : Store) (eventID : String) : Option Event :=
  tx.events.find? (fun e => e.ID == eventID)

/-- The `WHERE id = ? AND registered < capacity` predicate of the conditional update. -/
def claimable (eventID : String) (e : Event) : Bool :=
  e.ID == eventID && decide (e.Registered < e.Capacity)

/-- The conditional `UPDATE events SET registered = registered + 1 WHERE id = ? AND
registered < capacity`: the store after it and the number of rows affected. -/
def updateRegistered (tx : Store) (eventID : String) : Store × Nat :=
  let set := fun (e : Event) =>
    if claimable eventID e then { e with Registered := e.Registered + 1 } else e
  ({ tx with events := tx.events.map set }, tx.events.countP (claimable eventID))

/-- The part of `IncrementRegistered` after the locking read: `e` is the row as read, `tx`
the store the conditional update runs against.  Returns the store after the call, the
event handed back and `granted`.  (`e.Registered++` cannot overflow: it runs only below
`e.Capacity`.) -/
def incrementAfterRead (env : Env) (e : Event) (tx : Store) (eventID : String) :
    Except Err (Store × Event × Bool) :=
  if e.Registered ≥ e.Capacity then
    .ok (tx, e, false)
  else
    match env.updateErr with
    | some err => .error (Err.wrap "eventRepo.IncrementRegistered update" err)
    | none =>
      let res := updateRegistered tx eventID
      if res.2 == 0 then
        .ok (res.1, e, false)
      else
        .ok (res.1, { e with Registered := e.Registered + 1 }, true)

/-- Go `eventRepository.IncrementRegistered`: read the row (with `FOR UPDATE`), give up when
it is full, otherwise run the conditional update. -/
def IncrementRegistered (env : Env) (tx : Store) (eventID : String) :
    Except Err (Store × Event × Bool) :=
  match env.lockErr with
  | some err => .error (Err.wrap "eventRepo.IncrementRegistered lock" err)
  | none =>
    match firstEvent tx eventID with
    | none => .error (Err.wrap "eventRepo.IncrementRegistered lock" Err.ErrRecordNotFound)
    | some e => incrementAfterRead env e tx eventID

/-! ## Booking service -/

/-- The gorm call `db.Transaction(fc)`: `fc` runs on the transaction's view of the store;
its writes reach the database only if `fc` returns no error and the commit goes through,
otherwise the transaction is rolled back and the database is as before. -/
def Transaction {α : Type} (env : Env) (db : Store) (fc : Store → Except Err (Store × α)) :
    Store × Except Err α :=
  match env.beginErr with
  | some err => (db, .error err)
  | none =>
    match fc db with
    | .error err => (db, .error err)
    | .ok (tx, a) =>
      match env.commitErr with
      | some err => (db, .error err)
      | none => (tx, .ok a)

/-- The function `Book` passes to `db.Transaction`. -/
def bookTx (env : Env) (userID eventID : String) (tx : Store) :
    Except Err (Store × Registration) :=
  match IncrementRegistered env tx eventID with
  | .error err => .error err
  | .ok (tx1, _, ok) =>
    if !ok then
      .error Err.ErrEventFull
    else
      Create env tx1 { ID := "", UserID := userID, EventID := eventID, Status := StatusConfirmed }

/-- Go `bookingService.Book`: the store after the call and what the call returns (a
registration, or an error with a nil registration). -/
def Book (env : Env) (db : Store) (userID eventID : String) : Store × Except Err Registration :=
  match FindByUserAndEvent env db userID eventID with
  | .ok _ => (db, .error Err.ErrDuplicateBooking)
  | .error err =>
    if !errorsIs err Err.ErrRecordNotFound then
      (db, .error (Err.wrap "bookingSvc.Book lookup" err))
    else
      Transaction env db (bookTx env userID eventID)

/-- One call of `Book`, with its environment. -/
structure Call where
  env : Env
  userID : String
  eventID : String
deriving DecidableEq, Repr

/-- A sequence of `Book` calls executed one after another: the final store and the
result of each call, in call order. -/
def bookAll : Store → List Call → Store × List (Except Err Registration)
  | db, [] => (db, [])
  | db, c :: cs =>
    let r := Book c.env db c.userID c.eventID
    let rest := bookAll r.1 cs
    (rest.1, r.2 :: rest.2)


/-! ## Read paths and handler -/

/-- Go `registrationRepository.FindByEvent` when the query runs: the rows selected by
`WHERE event_id = ? AND status = 'confirmed'`. -/
def FindByEvent (db : Store) (eventID : String) : List Registration :=
  db.registrations.filter (fun r => r.EventID == eventID && r.Status == StatusConfirmed)

/-- The HTTP status `BookingHandler.BookEvent` answers with for a result of `Book`. -/
def BookEventStatus : Except Err Registration → Nat
  | .ok _ => 201
  | .error err =>
    if errorsIs err Err.ErrEventFull then 409
    else if errorsIs err Err.ErrDuplicateBooking then 409
    else 500

/-! ## Predicates on stores and results -/

deriving instance DecidableEq for Except

/-- The primary key of the `events` table: no two rows share an `ID`. -/
def EventsKeyed (db : Store) : Prop := (db.events.map Event.ID).Nodup

instance (db : Store) : Decidable (EventsKeyed db) := by
  unfold EventsKeyed; exact inferInstance

/-- Every event has `registered <= capacity`. -/
def WithinCapacity (db : Store) : Prop := ∀ e ∈ db.events, e.Registered ≤ e.Capacity

instance (db : Store) : Decidable (WithinCapacity db) := by
  unfold WithinCapacity; exact inferInstance

/-- Every event has at most `capacity` confirmed registrations. -/
def RowsWithinCapacity (db : Store) : Prop :=
  ∀ e ∈ db.events, ((FindByEvent db e.ID).length : Int) ≤ e.Capacity

instance (db : Store) : Decidable (RowsWithinCapacity db) := by
  unfold RowsWithinCapacity; exact inferInstance

/-- Every event has at most `registered` confirmed registrations. -/
def RowsWithinCounter (db : Store) : Prop :=
  ∀ e ∈ db.events, ((FindByEvent db e.ID).length : Int) ≤ e.Registered

instance (db : Store) : Decidable (RowsWithinCounter db) := by
  unfold RowsWithinCounter; exact inferInstance

/-- Every event's `registered` is the number of its confirmed registrations. -/
def CountersMatchRows (db : Store) : Prop :=
  ∀ e ∈ db.events, e.Registered = ((FindByEvent db e.ID).length : Int)

instance (db : Store) : Decidable (CountersMatchRows db) := by
  unfold CountersMatchRows; exact inferInstance

/-- Every (user, event) pair has at most one confirmed registration. -/
def NoDuplicates (db : Store) : Prop :=
  ∀ userID eventID : String,
    db.registrations.countP (matchesUserEvent userID eventID StatusConfirmed) ≤ 1

/-- No statement of the call fails in the storage engine. -/
def Env.NoFault (env : Env) : Prop :=
  env.lookupErr = none ∧ env.beginErr = none ∧ env.lockErr = none ∧
  env.updateErr = none ∧ env.createErr = none ∧ env.commitErr = none

instance (env : Env) : Decidable env.NoFault := by
  unfold Env.NoFault; exact inferInstance

/-- The row a successful `Book` call inserts and returns. -/
def Call.row (c : Call) : Registration :=
  { ID := c.env.uuid, UserID := c.userID, EventID := c.eventID, Status := StatusConfirmed }

/-- The registrations returned by the calls that succeeded, in call order. -/
def successes : List (Except Err Registration) → List Registration
  | [] => []
  | .ok reg :: rs => reg :: successes rs
  | .error _ :: rs => successes rs

/-- The users whose call succeeded, in call order. -/
def succeededUsers : List Call → List (Except Err Registration) → List String
  | c :: cs, .ok _ :: rs => c.userID :: succeededUsers cs rs
  | _ :: cs, .error _ :: rs => succeededUsers cs rs
  | _, _ => []

/-- The results of a run in which the first `k` calls succeed and the others find the
event full. -/
def firstServed (k : Nat) (calls : List Call) : List (Except Err Registration) :=
  (calls.take k).map (fun c => .ok c.row) ++
    (calls.drop k).map (fun _ => .error Err.ErrEventFull)

/-! ## Concrete stores and calls -/

/-- An event with one seat, none taken. -/
def soloEvent : Event :=
  { ID := "e1", Title := "Solo", Description := "", Capacity := 1, Registered := 0,
    OrganizerID := "org" }

/-- An event with two seats, none taken. -/
def duoEvent : Event :=
  { ID := "e2", Title := "Duo", Description := "", Capacity := 2, Registered := 0,
    OrganizerID := "org" }

/-- An event created with no seat. -/
def emptyEvent : Event :=
  { ID := "e0", Title := "Closed", Description := "", Capacity := 0, Registered := 0,
    OrganizerID := "org" }

/-- A store with the one-seat event and no registration. -/
def oneSeat : Store := { events := [soloEvent], registrations := [] }

/-- A store with both events and no registration. -/
def twoEvents : Store := { events := [soloEvent, duoEvent], registrations := [] }

/-- A store with the seatless event and the two-seat event, no registration. -/
def closedStore : Store := { events := [emptyEvent, duoEvent], registrations := [] }

/-- A store whose counter is within capacity while two confirmed rows reference the
one-seat event. -/
def crowded : Store :=
  { events := [soloEvent],
    registrations := [⟨"r1", "u1", "e1", StatusConfirmed⟩, ⟨"r2", "u2", "e1", StatusConfirmed⟩] }

/-- The one-seat event sold out to `u1`. -/
def soldOut : Store :=
  { events := [{ soloEvent with Registered := 1 }],
    registrations := [⟨"r1", "u1", "e1", StatusConfirmed⟩] }

/-- An environment whose insert fails with a disk error. -/
def insertFails : Env := { Env.ok "r1" with createErr := some (Err.storage "disk full") }

/-- An environment whose insert is rejected by the unique index on (user, event, status):
another process has inserted the pair since the lookup. -/
def insertRaces : Env :=
  { Env.ok "r1" with createErr := some (Err.uniqueViolation "idx_user_event_status") }

/-! ## The calls `Book` makes -/

/-- The calls `Book` makes on its collaborators: the two repositories and `db.Transaction`. -/
inductive Invocation where
  | FindByUserAndEvent : Invocation
  | Transaction : Invocation
  | IncrementRegistered : Invocation
  | Create : Invocation
deriving DecidableEq, Repr

/-- The function `Book` passes to `db.Transaction`, with the calls it makes, in order. -/
def bookTxTraced (env : Env) (userID eventID : String) (tx : Store) :
    List Invocation × Except Err (Store × Registration) :=
  match IncrementRegistered env tx eventID with
  | .error err => ([Invocation.IncrementRegistered], .error err)
  | .ok (tx1, _, ok) =>
    if !ok then
      ([Invocation.IncrementRegistered], .error Err.ErrEventFull)
    else
      ([Invocation.IncrementRegistered, Invocation.Create],
        Create env tx1 { ID := "", UserID := userID, EventID := eventID, Status := StatusConfirmed })

/-- The gorm call `db.Transaction(fc)`, with the calls made: itself, then those of `fc`
when the transaction could be begun. -/
def TransactionTraced {α : Type} (env : Env) (db : Store)
    (fc : Store → List Invocation × Except Err (Store × α)) :
    List Invocation × Store × Except Err α :=
  match env.beginErr with
  | some err => ([Invocation.Transaction], db, .error err)
  | none =>
    match fc db with
    | (log, .error err) => (Invocation.Transaction :: log, db, .error err)
    | (log, .ok (tx, a)) =>
      match env.commitErr with
      | some err => (Invocation.Transaction :: log, db, .error err)
      | none => (Invocation.Transaction :: log, tx, .ok a)

/-- Go `bookingService.Book`, with the calls it makes, in order: the same control flow as
`Book`, each call on a repository or on `db.Transaction` recorded when it is made. -/
def BookTraced (env : Env) (db : Store) (userID eventID : String) :
    List Invocation × Store × Except Err Registration :=
  match FindByUserAndEvent env db userID eventID with
  | .ok _ => ([Invocation.FindByUserAndEvent], db, .error Err.ErrDuplicateBooking)
  | .error err =>
    if !errorsIs err Err.ErrRecordNotFound then
      ([Invocation.FindByUserAndEvent], db, .error (Err.wrap "bookingSvc.Book lookup" err))
    else
      let r := TransactionTraced env db (bookTxTraced env userID eventID)
      (Invocation.FindByUserAndEvent :: r.1, r.2)

/-- The one-seat event sold out to `u1`, who also holds a seat of the two-seat event. -/
def busyStore : Store :=
  { events := [{ soloEvent with Registered := 1 }, { duoEvent with Registered := 1 }],
    registrations := [⟨"r1", "u1", "e1", StatusConfirmed⟩, ⟨"r2", "u1", "e2", StatusConfirmed⟩] }

theorem errorsIs_self (e : Err) : errorsIs e e = true := by
  cases e <;> simp [errorsIs]

/-- The conditional update keeps every row's identifier. -/
theorem updateRegistered_ids (tx : Store) (eventID : String) :
    (updateRegistered tx eventID).1.events.map Event.ID = tx.events.map Event.ID := by
  simp only [updateRegistered, List.map_map]
  apply List.map_congr_left
  intro e _
  simp only [Function.comp]
  split <;> rfl

theorem updateRegistered_registrations (tx : Store) (eventID : String) :
    (updateRegistered tx eventID).1.registrations = tx.registrations := rfl

/-- The row read after the conditional update is the row read before, updated. -/
theorem firstEvent_updateRegistered (tx : Store) (eventID other : String) :
    firstEvent (updateRegistered tx eventID).1 other =
      (firstEvent tx other).map
        (fun e => if claimable eventID e then { e with Registered := e.Registered + 1 } else e) := by
  simp only [firstEvent, updateRegistered, List.find?_map]
  congr 2
  funext e
  simp only [Function.comp]
  split <;> rfl

/-- With no row claimable the conditional update changes nothing. -/
theorem updateRegistered_of_count_zero (tx : Store) (eventID : String)
    (h : (updateRegistered tx eventID).2 = 0) : (updateRegistered tx eventID).1 = tx := by
  simp only [updateRegistered, List.countP_eq_zero] at h
  simp only [updateRegistered]
  have : tx.events.map (fun e =>
      if claimable eventID e then { e with Registered := e.Registered + 1 } else e) = tx.events := by
    conv_rhs => rw [← List.map_id tx.events]
    apply List.map_congr_left
    intro e he
    simp [h e he]
  rw [this]

/-! ## What a call of `Book` does -/

/-- A granted claim: the row read was below capacity and the conditional update ran. -/
theorem IncrementRegistered_granted {env : Env} {tx tx1 : Store} {eventID : String} {e1 : Event}
    (h : IncrementRegistered env tx eventID = .ok (tx1, e1, true)) :
    ∃ ev, firstEvent tx eventID = some ev ∧ ev.Registered < ev.Capacity ∧
      tx1 = (updateRegistered tx eventID).1 ∧
      e1 = { ev with Registered := ev.Registered + 1 } := by
  unfold IncrementRegistered at h
  split at h
  · cases h
  · split at h
    · cases h
    · rename_i ev hf
      unfold incrementAfterRead at h
      split at h
      · cases h
      · rename_i hfull
        split at h
        · cases h
        · simp only at h
          split at h
          · cases h
          · injection h with h
            injection h with h1 h2
            injection h2 with h2 _
            exact ⟨ev, hf, lt_of_not_ge hfull, h1.symm, h2.symm⟩

/-- A refused claim leaves the transaction's store as it was. -/
theorem IncrementRegistered_refused {env : Env} {tx tx1 : Store} {eventID : String} {e1 : Event}
    (h : IncrementRegistered env tx eventID = .ok (tx1, e1, false)) : tx1 = tx := by
  unfold IncrementRegistered at h
  split at h
  · cases h
  · split at h
    · cases h
    · unfold incrementAfterRead at h
      split at h
      · injection h with h
        injection h with h1 _
        exact h1.symm
      · split at h
        · cases h
        · simp only at h
          split at h
          · rename_i hz
            injection h with h
            injection h with h1 _
            rw [← h1]
            exact updateRegistered_of_count_zero tx eventID (by simpa using hz)
          · injection h with h
            injection h with _ h2
            injection h2 with _ h3
            cases h3

/-- A successful insert: the statement ran, neither unique index had the row, and the row
was appended. -/
theorem Create_ok {env : Env} {tx tx2 : Store} {reg row : Registration}
    (h : Create env tx reg = .ok (tx2, row)) :
    env.createErr = none ∧ row = reg.BeforeCreate env.uuid ∧
      tx.registrations.any (fun r => r.ID == row.ID) = false ∧
      tx.registrations.any (matchesUserEvent row.UserID row.EventID row.Status) = false ∧
      tx2 = { tx with registrations := tx.registrations ++ [row] } := by
  unfold Create at h
  split at h
  · cases h
  · rename_i hc
    simp only at h
    split at h
    · cases h
    · rename_i hpk
      split at h
      · cases h
      · rename_i hix
        injection h with h
        injection h with h1 h2
        subst h2
        exact ⟨hc, rfl, by simpa using hpk, by simpa using hix, h1.symm⟩

/-- A transaction body that returns a row has claimed a seat of the event and appended
that row. -/
theorem bookTx_ok {env : Env} {userID eventID : String} {tx tx2 : Store} {row : Registration}
    (h : bookTx env userID eventID tx = .ok (tx2, row)) :
    ∃ ev, firstEvent tx eventID = some ev ∧ ev.Registered < ev.Capacity ∧
      row = ⟨env.uuid, userID, eventID, StatusConfirmed⟩ ∧
      tx.registrations.any (fun r => r.ID == env.uuid) = false ∧
      tx.registrations.any (matchesUserEvent userID eventID StatusConfirmed) = false ∧
      tx2 = { events := (updateRegistered tx eventID).1.events,
              registrations := tx.registrations ++ [row] } := by
  unfold bookTx at h
  split at h
  · cases h
  · rename_i tx1 e1 ok hinc
    cases ok with
    | false => simp at h
    | true =>
      simp only [Bool.not_true, if_false] at h
      obtain ⟨ev, hf, hlt, htx1, _⟩ := IncrementRegistered_granted hinc
      obtain ⟨_, hrow, hpk, hix, htx2⟩ := Create_ok h
      have hrow2 : row = ⟨env.uuid, userID, eventID, StatusConfirmed⟩ := by
        rw [hrow]; simp [Registration.BeforeCreate]
      subst htx1
      rw [updateRegistered_registrations] at hpk hix htx2
      refine ⟨ev, hf, hlt, hrow2, ?_, ?_, htx2⟩
      · rw [hrow2] at hpk; exact hpk
      · rw [hrow2] at hix; exact hix

/-- Whatever goes wrong inside `db.Transaction`, the database is as before. -/
theorem Transaction_error {α : Type} {env : Env} {db db2 : Store}
    {fc : Store → Except Err (Store × α)} {err : Err}
    (h : Transaction env db fc = (db2, .error err)) : db2 = db := by
  unfold Transaction at h
  split at h
  · injection h with h1 _; exact h1.symm
  · split at h
    · injection h with h1 _; exact h1.symm
    · split at h
      · injection h with h1 _; exact h1.symm
      · injection h with _ h2; cases h2

/-- A transaction that returns a value ran its body to the end and committed. -/
theorem Transaction_ok {α : Type} {env : Env} {db db2 : Store}
    {fc : Store → Except Err (Store × α)} {a : α}
    (h : Transaction env db fc = (db2, .ok a)) : fc db = .ok (db2, a) := by
  unfold Transaction at h
  split at h
  · injection h with _ h2; cases h2
  · split at h
    · injection h with _ h2; cases h2
    · rename_i tx a2 hfc
      split at h
      · injection h with _ h2; cases h2
      · injection h with h1 h2
        injection h2 with h2
        rw [hfc, h1, h2]

/-- A call of `Book` that returns an error leaves the store as it was. -/
theorem Book_error {env : Env} {db db2 : Store} {userID eventID : String} {err : Err}
    (h : Book env db userID eventID = (db2, .error err)) : db2 = db := by
  unfold Book at h
  split at h
  · injection h with h1 _; exact h1.symm
  · split at h
    · injection h with h1 _; exact h1.symm
    · exact Transaction_error h

/-- A call of `Book` that returns a row has claimed a seat of the event and appended that
row: the store after the call is the store before with the conditional update applied and
the row added. -/
theorem Book_ok {env : Env} {db db2 : Store} {userID eventID : String} {row : Registration}
    (h : Book env db userID eventID = (db2, .ok row)) :
    ∃ ev, firstEvent db eventID = some ev ∧ ev.Registered < ev.Capacity ∧
      row = ⟨env.uuid, userID, eventID, StatusConfirmed⟩ ∧
      db.registrations.any (fun r => r.ID == env.uuid) = false ∧
      db.registrations.any (matchesUserEvent userID eventID StatusConfirmed) = false ∧
      db2 = { events := (updateRegistered db eventID).1.events,
              registrations := db.registrations ++ [row] } := by
  unfold Book at h
  split at h
  · injection h with _ h2; cases h2
  · split at h
    · injection h with _ h2; cases h2
    · exact bookTx_ok (Transaction_ok h)

/-- Every call either fails and changes nothing, or returns a row. -/
theorem Book_cases (env : Env) (db : Store) (userID eventID : String) :
    (∃ err, Book env db userID eventID = (db, .error err)) ∨
    (∃ db2 row, Book env db userID eventID = (db2, .ok row)) := by
  rcases hb : Book env db userID eventID with ⟨db2, r⟩
  cases r with
  | error err => left; exact ⟨err, by rw [Book_error hb]⟩
  | ok row => right; exact ⟨db2, row, rfl⟩

/-! ## Effect of a successful call on the two tables -/

/-- Under the primary key, the row read for an identifier is the only row with it. -/
theorem firstEvent_unique {db : Store} {eventID : String} {ev e : Event}
    (hk : EventsKeyed db) (hf : firstEvent db eventID = some ev)
    (he : e ∈ db.events) (hid : e.ID = eventID) : e = ev := by
  have hmem : ev ∈ db.events := List.mem_of_find?_eq_some hf
  have hev : ev.ID = eventID := by
    have := List.find?_some hf
    simpa using this
  exact List.inj_on_of_nodup_map hk he hmem (by rw [hid, hev])

theorem firstEvent_id {db : Store} {eventID : String} {ev : Event}
    (hf : firstEvent db eventID = some ev) : ev.ID = eventID := by
  have := List.find?_some hf
  simpa using this

theorem firstEvent_mem {db : Store} {eventID : String} {ev : Event}
    (hf : firstEvent db eventID = some ev) : ev ∈ db.events :=
  List.mem_of_find?_eq_some hf

/-- Every row after the conditional update is a row from before, incremented when it was
claimable. -/
theorem mem_updateRegistered {db : Store} {eventID : String} {e2 : Event}
    (h : e2 ∈ (updateRegistered db eventID).1.events) :
    ∃ e ∈ db.events, (claimable eventID e = true ∧ e2 = { e with Registered := e.Registered + 1 }) ∨
      (claimable eventID e = false ∧ e2 = e) := by
  simp only [updateRegistered, List.mem_map] at h
  obtain ⟨e, he, hset⟩ := h
  refine ⟨e, he, ?_⟩
  by_cases hc : claimable eventID e = true
  · left; simp only [hc, if_true] at hset; exact ⟨hc, hset.symm⟩
  · right; simp only [hc, if_false] at hset
    exact ⟨by simpa using hc, hset.symm⟩

/-- Under the primary key, after a granted claim every row is the claimed row plus one or
a row of another event, untouched. -/
theorem mem_updateRegistered_keyed {db : Store} {eventID : String} {ev e2 : Event}
    (hk : EventsKeyed db) (hf : firstEvent db eventID = some ev)
    (hlt : ev.Registered < ev.Capacity)
    (h : e2 ∈ (updateRegistered db eventID).1.events) :
    (e2.ID = eventID ∧ e2 = { ev with Registered := ev.Registered + 1 }) ∨
      (e2.ID ≠ eventID ∧ e2 ∈ db.events) := by
  obtain ⟨e, he, hcase⟩ := mem_updateRegistered h
  by_cases hid : e.ID = eventID
  · left
    have heq : e = ev := firstEvent_unique hk hf he hid
    subst heq
    rcases hcase with ⟨_, h2⟩ | ⟨hc, _⟩
    · exact ⟨by rw [h2]; exact hid, h2⟩
    · simp [claimable, hid, hlt] at hc
  · right
    rcases hcase with ⟨hc, _⟩ | ⟨_, h2⟩
    · simp [claimable, hid] at hc
    · rw [h2]; exact ⟨hid, he⟩

/-- The confirmed rows of an event after one row is appended. -/
theorem FindByEvent_append (evs evs2 : List Event) (regs : List Registration)
    (row : Registration) (eventID : String) :
    FindByEvent ⟨evs2, regs ++ [row]⟩ eventID =
      FindByEvent ⟨evs, regs⟩ eventID ++
        (if (row.EventID == eventID && row.Status == StatusConfirmed) = true then [row] else []) := by
  simp only [FindByEvent, List.filter_append, List.filter_cons, List.filter_nil]

theorem FindByEvent_events (evs evs2 : List Event) (regs : List Registration)
    (eventID : String) : FindByEvent ⟨evs2, regs⟩ eventID = FindByEvent ⟨evs, regs⟩ eventID := rfl

/-- The primary key of `events` survives every call. -/
theorem Book_keyed (env : Env) (db : Store) (userID eventID : String) (hk : EventsKeyed db) :
    EventsKeyed (Book env db userID eventID).1 := by
  rcases Book_cases env db userID eventID with ⟨err, h⟩ | ⟨db2, row, h⟩
  · rw [h]; exact hk
  · obtain ⟨ev, _, _, _, _, _, hdb2⟩ := Book_ok h
    rw [h, hdb2]
    unfold EventsKeyed
    simp only
    rw [updateRegistered_ids]
    exact hk

/-- The capacity bound on counters survives every call. -/
theorem Book_withinCapacity (env : Env) (db : Store) (userID eventID : String)
    (hc : WithinCapacity db) : WithinCapacity (Book env db userID eventID).1 := by
  rcases Book_cases env db userID eventID with ⟨err, h⟩ | ⟨db2, row, h⟩
  · rw [h]; exact hc
  · obtain ⟨ev, _, _, _, _, _, hdb2⟩ := Book_ok h
    rw [h, hdb2]
    intro e2 he2
    obtain ⟨e, he, ⟨hcl, h2⟩ | ⟨_, h2⟩⟩ := mem_updateRegistered he2
    · simp only [claimable, Bool.and_eq_true, decide_eq_true_eq] at hcl
      rw [h2]; simp only; omega
    · rw [h2]; exact hc e he

/-- The confirmed rows of each event after a successful call. -/
theorem FindByEvent_booked (evs evs2 : List Event) (regs : List Registration)
    (uuid userID eventID other : String) :
    (FindByEvent ⟨evs2, regs ++ [⟨uuid, userID, eventID, StatusConfirmed⟩]⟩ other).length =
      (FindByEvent ⟨evs, regs⟩ other).length + (if eventID = other then 1 else 0) := by
  rw [FindByEvent_append evs evs2]
  by_cases h : eventID = other
  · simp [h]
  · simp [h]

/-- Under the primary key, "at most `registered` confirmed rows" survives every call. -/
theorem Book_rowsWithinCounter (env : Env) (db : Store) (userID eventID : String)
    (hk : EventsKeyed db) (hr : RowsWithinCounter db) :
    RowsWithinCounter (Book env db userID eventID).1 := by
  rcases Book_cases env db userID eventID with ⟨err, h⟩ | ⟨db2, row, h⟩
  · rw [h]; exact hr
  · obtain ⟨ev, hf, hlt, hrow, _, _, hdb2⟩ := Book_ok h
    rw [h, hdb2, hrow]
    intro e2 he2
    have hlen := FindByEvent_booked db.events (updateRegistered db eventID).1.events
      db.registrations env.uuid userID eventID e2.ID
    simp only at hlen ⊢
    rw [hlen]
    rcases mem_updateRegistered_keyed hk hf hlt he2 with ⟨hid, h2⟩ | ⟨hid, hmem⟩
    · have h0 := hr ev (firstEvent_mem hf)
      rw [firstEvent_id hf] at h0
      rw [hid, h2]
      simp only [if_true]
      push_cast
      change ((FindByEvent db eventID).length : Int) + 1 ≤ ev.Registered + 1
      omega
    · have h0 := hr e2 hmem
      have hne : ¬ eventID = e2.ID := fun hh => hid hh.symm
      simp only [hne, if_false, add_zero]
      exact h0

/-- Under the primary key, the equality of counters and confirmed rows survives every
call. -/
theorem Book_countersMatchRows (env : Env) (db : Store) (userID eventID : String)
    (hk : EventsKeyed db) (hr : CountersMatchRows db) :
    CountersMatchRows (Book env db userID eventID).1 := by
  rcases Book_cases env db userID eventID with ⟨err, h⟩ | ⟨db2, row, h⟩
  · rw [h]; exact hr
  · obtain ⟨ev, hf, hlt, hrow, _, _, hdb2⟩ := Book_ok h
    rw [h, hdb2, hrow]
    intro e2 he2
    have hlen := FindByEvent_booked db.events (updateRegistered db eventID).1.events
      db.registrations env.uuid userID eventID e2.ID
    simp only at hlen ⊢
    rw [hlen]
    rcases mem_updateRegistered_keyed hk hf hlt he2 with ⟨hid, h2⟩ | ⟨hid, hmem⟩
    · have h0 := hr ev (firstEvent_mem hf)
      rw [firstEvent_id hf] at h0
      rw [hid, h2]
      simp only [if_true]
      push_cast
      change ev.Registered + 1 = ((FindByEvent db eventID).length : Int) + 1
      omega
    · have h0 := hr e2 hmem
      have hne : ¬ eventID = e2.ID := fun hh => hid hh.symm
      simp only [hne, if_false, add_zero]
      exact h0

/-- At most one confirmed row per (user, event) survives every call. -/
theorem Book_noDuplicates (env : Env) (db : Store) (userID eventID : String)
    (hn : NoDuplicates db) : NoDuplicates (Book env db userID eventID).1 := by
  rcases Book_cases env db userID eventID with ⟨err, h⟩ | ⟨db2, row, h⟩
  · rw [h]; exact hn
  · obtain ⟨ev, _, _, hrow, _, hix, hdb2⟩ := Book_ok h
    rw [h, hdb2, hrow]
    intro u e
    simp only [List.countP_append, List.countP_cons, List.countP_nil, zero_add]
    by_cases hm : matchesUserEvent u e StatusConfirmed ⟨env.uuid, userID, eventID, StatusConfirmed⟩ = true
    · have hu : userID = u ∧ eventID = e := by
        simpa [matchesUserEvent] using hm
      obtain ⟨hu1, hu2⟩ := hu
      subst hu1 hu2
      have hz : db.registrations.countP (matchesUserEvent userID eventID StatusConfirmed) = 0 := by
        rw [List.countP_eq_zero]
        intro r hr
        have := List.any_eq_false.mp hix r hr
        exact this
      rw [hz]; split <;> omega
    · simp only [hm, if_false, add_zero]
      exact hn u e

/-- A property of stores that every call keeps holds after every sequence of calls. -/
theorem bookAll_invariant (P : Store → Prop)
    (hstep : ∀ env db userID eventID, P db → P (Book env db userID eventID).1) :
    ∀ (calls : List Call) (db : Store), P db → P (bookAll db calls).1 := by
  intro calls
  induction calls with
  | nil => intro db h; exact h
  | cons c cs ih =>
    intro db h
    simp only [bookAll]
    exact ih _ (hstep c.env db c.userID c.eventID h)

/-! ## Forward lemmas: when a call succeeds, is refused, or is a duplicate -/

/-- A user who holds a confirmed row for the event is turned away by the duplicate guard. -/
theorem Book_duplicate (env : Env) (db : Store) (userID eventID : String) {r : Registration}
    (hl : env.lookupErr = none) (hr : r ∈ db.registrations)
    (hm : matchesUserEvent userID eventID StatusConfirmed r = true) :
    Book env db userID eventID = (db, .error Err.ErrDuplicateBooking) := by
  unfold Book FindByUserAndEvent
  rw [hl]
  cases hfind : db.registrations.find? (matchesUserEvent userID eventID StatusConfirmed) with
  | some reg => rfl
  | none =>
    have := List.find?_eq_none.mp hfind r hr
    exact absurd hm this

/-- With the lookup, the begin and the locking read running, a full event refuses a user
who holds no confirmed row for it. -/
theorem Book_full (env : Env) (db : Store) (userID eventID : String) {ev : Event}
    (hl : env.lookupErr = none) (hb : env.beginErr = none) (hk : env.lockErr = none)
    (hnone : db.registrations.find? (matchesUserEvent userID eventID StatusConfirmed) = none)
    (hf : firstEvent db eventID = some ev) (hfull : ev.Registered ≥ ev.Capacity) :
    Book env db userID eventID = (db, .error Err.ErrEventFull) := by
  simp [Book, FindByUserAndEvent, hl, hnone, errorsIs, Transaction, hb, bookTx,
    IncrementRegistered, hk, hf, incrementAfterRead, hfull]

/-- With no statement failing, a user without a confirmed row gets a seat of an event that
has one left, provided the new identifier is not taken. -/
theorem Book_success (env : Env) (db : Store) (userID eventID : String) {ev : Event}
    (henv : env.NoFault)
    (hnone : db.registrations.any (matchesUserEvent userID eventID StatusConfirmed) = false)
    (hfresh : db.registrations.any (fun r => r.ID == env.uuid) = false)
    (hf : firstEvent db eventID = some ev) (hlt : ev.Registered < ev.Capacity) :
    Book env db userID eventID =
      ({ events := (updateRegistered db eventID).1.events,
         registrations := db.registrations ++ [⟨env.uuid, userID, eventID, StatusConfirmed⟩] },
       .ok ⟨env.uuid, userID, eventID, StatusConfirmed⟩) := by
  obtain ⟨h1, h2, h3, h4, h5, h6⟩ := henv
  have hfind : db.registrations.find? (matchesUserEvent userID eventID StatusConfirmed) = none := by
    rw [List.find?_eq_none]
    intro r hr
    have := List.any_eq_false.mp hnone r hr
    exact this
  have hcount : (updateRegistered db eventID).2 ≠ 0 := by
    simp only [updateRegistered, ne_eq, List.countP_eq_zero, not_forall]
    refine ⟨ev, firstEvent_mem hf, ?_⟩
    simp [claimable, firstEvent_id hf, hlt]
  have hnf : ¬ ev.Registered ≥ ev.Capacity := not_le.mpr hlt
  simp only [Book, FindByUserAndEvent, h1, hfind, errorsIs, Transaction, h2, bookTx,
    IncrementRegistered, h3, hf, incrementAfterRead, hnf, h4, Create, h5, h6,
    Registration.BeforeCreate, updateRegistered_registrations]
  simp [hcount, hnone, hfresh, updateRegistered_registrations]

/-- A property of stores that every call keeps holds after every sequence of calls, and
what every call guarantees of its result under it holds of every result of the sequence. -/
theorem bookAll_forall (P : Store → Prop) (Q : Call → Except Err Registration → Prop)
    (hstep : ∀ (c : Call) (db : Store), P db →
      P (Book c.env db c.userID c.eventID).1 ∧ Q c (Book c.env db c.userID c.eventID).2) :
    ∀ (calls : List Call) (db : Store), P db →
      P (bookAll db calls).1 ∧ ∀ p ∈ calls.zip (bookAll db calls).2, Q p.1 p.2 := by
  intro calls
  induction calls with
  | nil => intro db h; exact ⟨h, by simp [bookAll]⟩
  | cons c cs ih =>
    intro db h
    obtain ⟨h1, h2⟩ := hstep c db h
    obtain ⟨h3, h4⟩ := ih _ h1
    simp only [bookAll, List.zip_cons_cons, List.mem_cons]
    refine ⟨h3, ?_⟩
    intro p hp
    rcases hp with hp | hp
    · rw [hp]; exact h2
    · exact h4 p hp

/-- Rows of `registrations` are never removed or changed by a call. -/
theorem Book_registrations_mono (env : Env) (db : Store) (userID eventID : String)
    {r : Registration} (hr : r ∈ db.registrations) :
    r ∈ (Book env db userID eventID).1.registrations := by
  rcases Book_cases env db userID eventID with ⟨err, h⟩ | ⟨db2, row, h⟩
  · rw [h]; exact hr
  · obtain ⟨ev, _, _, _, _, _, hdb2⟩ := Book_ok h
    rw [h, hdb2]
    exact List.mem_append_left _ hr

/-- Rows of `registrations` are never removed or changed by a sequence of calls. -/
theorem bookAll_registrations_mono (calls : List Call) (db : Store)
    {r : Registration} (hr : r ∈ db.registrations) :
    r ∈ (bookAll db calls).1.registrations :=
  bookAll_invariant (fun s => r ∈ s.registrations)
    (fun env s u e h => Book_registrations_mono env s u e h) calls db hr

/-- When the insert fails after the lookup passed, the transaction began and the seat was
granted, `Book` hands back the insert's error and the store is as before. -/
theorem Book_insert_fails {env : Env} {db tx1 : Store} {userID eventID : String}
    {e0 err : Err} {e1 : Event}
    (hlook : FindByUserAndEvent env db userID eventID = .error e0)
    (hnf : errorsIs e0 Err.ErrRecordNotFound = true)
    (hb : env.beginErr = none)
    (hinc : IncrementRegistered env db eventID = .ok (tx1, e1, true))
    (hcreate : Create env tx1 ⟨"", userID, eventID, StatusConfirmed⟩ = .error err) :
    Book env db userID eventID = (db, .error err) := by
  simp [Book, hlook, hnf, Transaction, hb, bookTx, hinc, hcreate]

/-- The row read for an event after a successful call on it. -/
theorem firstEvent_after_claim {db : Store} {eventID : String} {ev : Event}
    (regs : List Registration)
    (hf : firstEvent db eventID = some ev) (hlt : ev.Registered < ev.Capacity) :
    firstEvent ⟨(updateRegistered db eventID).1.events, regs⟩ eventID =
      some { ev with Registered := ev.Registered + 1 } := by
  have h := firstEvent_updateRegistered db eventID eventID
  rw [hf] at h
  have hc : claimable eventID ev = true := by
    simp [claimable, firstEvent_id hf, hlt]
  simp only [Option.map_some', hc, if_true] at h
  exact h

/-- The row read for an event after a successful call on another event. -/
theorem firstEvent_after_other {db : Store} {eventID other : String}
    (regs : List Registration) (hne : other ≠ eventID) :
    firstEvent ⟨(updateRegistered db other).1.events, regs⟩ eventID = firstEvent db eventID := by
  have h := firstEvent_updateRegistered db other eventID
  cases hf : firstEvent db eventID with
  | none => rw [hf] at h; exact h
  | some ev =>
    rw [hf] at h
    have hc : claimable other ev = false := by
      have hid := firstEvent_id hf
      simp only [claimable, Bool.and_eq_false_imp, beq_iff_eq]
      intro hh
      exact absurd (hh.symm.trans hid) hne
    simp only [Option.map_some', hc] at h
    exact h

/-! ## Distinct users racing for a fresh event -/

theorem firstServed_zero_cons (c : Call) (cs : List Call) :
    firstServed 0 (c :: cs) = .error Err.ErrEventFull :: firstServed 0 cs := by
  simp [firstServed]

theorem firstServed_succ_cons (k : Nat) (c : Call) (cs : List Call) :
    firstServed (k + 1) (c :: cs) = .ok c.row :: firstServed k cs := by
  simp [firstServed]

theorem successes_firstServed (calls : List Call) :
    ∀ k, successes (firstServed k calls) = (calls.take k).map Call.row := by
  induction calls with
  | nil => intro k; simp [firstServed, successes]
  | cons c cs ih =>
    intro k
    cases k with
    | zero => rw [firstServed_zero_cons]; simp [successes, ih 0]
    | succ k => rw [firstServed_succ_cons]; simp [successes, ih k]

theorem succeededUsers_firstServed (calls : List Call) :
    ∀ k, succeededUsers calls (firstServed k calls) = (calls.take k).map Call.userID := by
  induction calls with
  | nil => intro k; simp [firstServed, succeededUsers]
  | cons c cs ih =>
    intro k
    cases k with
    | zero => rw [firstServed_zero_cons]; simp [succeededUsers, ih 0]
    | succ k => rw [firstServed_succ_cons]; simp [succeededUsers, ih k]

theorem countFull_firstServed (calls : List Call) :
    ∀ k, (firstServed k calls).countP (· = .error Err.ErrEventFull) = calls.length - k := by
  induction calls with
  | nil => intro k; simp [firstServed]
  | cons c cs ih =>
    intro k
    cases k with
    | zero => rw [firstServed_zero_cons]; simp [ih 0]
    | succ k => rw [firstServed_succ_cons]; simp [ih k]

/-- Calls by distinct users, none of whom holds a row for the event, with fresh
identifiers and no failing statement: the first `k` calls take the `k` seats left, the
others are refused with `ErrEventFull`. -/
theorem bookAll_firstServed (R : String) :
    ∀ (calls : List Call) (k : Nat) (db : Store) (ev : Event),
      firstEvent db R = some ev → ev.Registered + (k : Int) = ev.Capacity →
      (∀ c ∈ calls, c.eventID = R ∧ c.env.NoFault) →
      (calls.map Call.userID).Nodup →
      (calls.map (fun c => c.env.uuid)).Nodup →
      (∀ c ∈ calls, ∀ r ∈ db.registrations,
        r.ID ≠ c.env.uuid ∧ matchesUserEvent c.userID R StatusConfirmed r = false) →
      (bookAll db calls).2 = firstServed k calls ∧
      (bookAll db calls).1.registrations = db.registrations ++ (calls.take k).map Call.row ∧
      (firstEvent (bookAll db calls).1 R).map Event.Registered =
        some (ev.Registered + (min k calls.length : Nat)) := by
  intro calls
  induction calls with
  | nil =>
    intro k db ev hf _ _ _ _ _
    simp [bookAll, firstServed, hf]
  | cons c cs ih =>
    intro k db ev hf hk hcalls husers huuids hdb
    obtain ⟨hcR, hcenv⟩ := hcalls c (List.mem_cons_self _ _)
    have hcs : ∀ c2 ∈ cs, c2.eventID = R ∧ c2.env.NoFault :=
      fun c2 h2 => hcalls c2 (List.mem_cons_of_mem _ h2)
    rw [List.map_cons, List.nodup_cons] at husers huuids
    have hnone : db.registrations.any (matchesUserEvent c.userID c.eventID StatusConfirmed) = false := by
      rw [List.any_eq_false]
      intro r hr
      rw [hcR]
      simp [(hdb c (List.mem_cons_self _ _) r hr).2]
    cases k with
    | zero =>
      have hfull : ev.Registered ≥ ev.Capacity := by
        simp only [Nat.cast_zero, add_zero] at hk; omega
      have hfind : db.registrations.find? (matchesUserEvent c.userID c.eventID StatusConfirmed)
          = none := by
        rw [List.find?_eq_none]
        intro r hr
        have := List.any_eq_false.mp hnone r hr
        exact this
      have hB : Book c.env db c.userID c.eventID = (db, .error Err.ErrEventFull) :=
        Book_full c.env db c.userID c.eventID hcenv.1 hcenv.2.1 hcenv.2.2.1 hfind (by rw [hcR]; exact hf) hfull
      obtain ⟨h1, h2, h3⟩ := ih 0 db ev hf hk hcs husers.2 huuids.2
        (fun c2 h2 => hdb c2 (List.mem_cons_of_mem _ h2))
      simp only [bookAll, hB, firstServed_zero_cons, h1, h2, h3]
      simp
    | succ k =>
      have hlt : ev.Registered < ev.Capacity := by
        push_cast at hk; omega
      have hfresh : db.registrations.any (fun r => r.ID == c.env.uuid) = false := by
        rw [List.any_eq_false]
        intro r hr
        simp [(hdb c (List.mem_cons_self _ _) r hr).1]
      have hB := Book_success c.env db c.userID c.eventID hcenv hnone hfresh
        (by rw [hcR]; exact hf) hlt
      have hrow : (⟨c.env.uuid, c.userID, c.eventID, StatusConfirmed⟩ : Registration) = c.row := rfl
      rw [hrow, hcR] at hB
      have hf1 := firstEvent_after_claim (db.registrations ++ [c.row]) hf hlt
      obtain ⟨h1, h2, h3⟩ := ih k _ _ hf1 (by simp only; push_cast at hk; omega) hcs
        husers.2 huuids.2 (by
          intro c2 hc2 r hr
          simp only [List.mem_append, List.mem_singleton] at hr
          rcases hr with hr | hr
          · exact hdb c2 (List.mem_cons_of_mem _ hc2) r hr
          · subst hr
            constructor
            · intro heq
              exact huuids.1 (List.mem_map.mpr ⟨c2, hc2, heq.symm⟩)
            · by_contra hm
              have hu : c.userID = c2.userID := by
                simp only [matchesUserEvent, Call.row, Bool.not_eq_false, Bool.and_eq_true,
                  beq_iff_eq] at hm
                exact hm.1.1
              exact husers.1 (List.mem_map.mpr ⟨c2, hc2, hu.symm⟩))
      simp only [bookAll, hcR, hB, firstServed_succ_cons, h1, h2, h3]
      refine ⟨trivial, by simp, ?_⟩
      simp only [List.length_cons, Nat.succ_min_succ]
      push_cast
      congr 1
      omega

/-! ## The claims -/

/-- C1, as stated, fails: in the store `crowded` the counter of the one-seat event is
within capacity (0 of 1), yet after one more successful call the event has three confirmed
registrations for its single seat. -/
theorem capacity_safety_counterexample :
    WithinCapacity crowded ∧
      ¬ (WithinCapacity (bookAll crowded [⟨Env.ok "r3", "u3", "e1"⟩]).1 ∧
          RowsWithinCapacity (bookAll crowded [⟨Env.ok "r3", "u3", "e1"⟩]).1) := by
  decide

/-- C1, amended (capacity safety): from every store in which every event has
`registered <= capacity` and at most `registered` confirmed registrations, every finite
sequence of `Book` calls executed one after another leads to a store in which every event
still has `registered <= capacity` and at most `capacity` confirmed registrations. -/
theorem capacity_safety (db : Store) (calls : List Call)
    (hk : EventsKeyed db) (hc : WithinCapacity db) (hr : RowsWithinCounter db) :
    WithinCapacity (bookAll db calls).1 ∧ RowsWithinCapacity (bookAll db calls).1 := by
  have h := bookAll_invariant
    (fun s => EventsKeyed s ∧ WithinCapacity s ∧ RowsWithinCounter s)
    (fun env s u e hs =>
      ⟨Book_keyed env s u e hs.1, Book_withinCapacity env s u e hs.2.1,
        Book_rowsWithinCounter env s u e hs.1 hs.2.2⟩)
    calls db ⟨hk, hc, hr⟩
  refine ⟨h.2.1, ?_⟩
  intro e he
  exact le_trans (h.2.2 e he) (h.2.1 e he)

/-- C1 witness: three calls on the two-event store, the second on a sold-out event and the
third with a failing insert. -/
theorem capacity_safety_witness :
    (EventsKeyed twoEvents ∧ WithinCapacity twoEvents ∧ RowsWithinCounter twoEvents) ∧
      WithinCapacity (bookAll twoEvents
        [⟨Env.ok "r1", "u1", "e1"⟩, ⟨Env.ok "r2", "u2", "e1"⟩, ⟨insertFails, "u2", "e2"⟩]).1 ∧
      RowsWithinCapacity (bookAll twoEvents
        [⟨Env.ok "r1", "u1", "e1"⟩, ⟨Env.ok "r2", "u2", "e1"⟩, ⟨insertFails, "u2", "e2"⟩]).1 :=
  ⟨by decide, capacity_safety twoEvents _ (by decide) (by decide) (by decide)⟩

/-- C2 (counter/row equality): if every event's `registered` equals the number of confirmed
registrations referencing it, the same holds after any `Book` call, whatever the call
returns and whichever statement fails in it (the insert included). -/
theorem counter_row_equality (env : Env) (db : Store) (userID eventID : String)
    (hk : EventsKeyed db) (hr : CountersMatchRows db) :
    CountersMatchRows (Book env db userID eventID).1 :=
  Book_countersMatchRows env db userID eventID hk hr

/-- C2 witness: a call with a failing insert on the sold-out store. -/
theorem counter_row_equality_witness :
    (EventsKeyed soldOut ∧ CountersMatchRows soldOut) ∧
      CountersMatchRows (Book insertFails soldOut "u2" "e1").1 :=
  ⟨by decide, counter_row_equality insertFails soldOut "u2" "e1" (by decide) (by decide)⟩

/-- C3 (no duplicates): if every (user, event) pair has at most one confirmed registration,
it still has at most one after every sequence of `Book` calls, repeated calls with the same
user and event included. -/
theorem no_duplicates (db : Store) (calls : List Call) (hn : NoDuplicates db) :
    NoDuplicates (bookAll db calls).1 :=
  bookAll_invariant NoDuplicates Book_noDuplicates calls db hn

/-- C3 witness: the holder of the only seat books twice more, then another user books. -/
theorem no_duplicates_witness :
    NoDuplicates soldOut ∧
      NoDuplicates (bookAll soldOut
        [⟨Env.ok "r2", "u1", "e1"⟩, ⟨Env.ok "r3", "u1", "e1"⟩, ⟨Env.ok "r4", "u2", "e1"⟩]).1 :=
  have h : NoDuplicates soldOut := fun u e => by
    simp only [soldOut]
    exact List.countP_le_length _
  ⟨h, no_duplicates soldOut _ h⟩

/-- C4 (idempotent rejection): once `Book(A, R)` has succeeded, every later `Book(A, R)`
whose lookup query runs, with any other calls in between, returns `ErrDuplicateBooking`
and leaves the store unchanged (no second row, no second increment).  In particular two
calls in a row by one user on a fresh event of capacity 10 give success, then
`ErrDuplicateBooking`, and leave `registered = 1` with the single row. -/
theorem idempotent_rejection :
    (∀ (env0 env : Env) (s0 s1 : Store) (A R : String) (reg : Registration)
        (calls : List Call),
      Book env0 s0 A R = (s1, .ok reg) → env.lookupErr = none →
      Book env (bookAll s1 calls).1 A R =
        ((bookAll s1 calls).1, .error Err.ErrDuplicateBooking)) ∧
    (∀ (A uuid1 uuid2 : String) (e : Event), e.Capacity = 10 → e.Registered = 0 →
      bookAll ⟨[e], []⟩ [⟨Env.ok uuid1, A, e.ID⟩, ⟨Env.ok uuid2, A, e.ID⟩] =
        (⟨[{ e with Registered := 1 }], [⟨uuid1, A, e.ID, StatusConfirmed⟩]⟩,
          [.ok ⟨uuid1, A, e.ID, StatusConfirmed⟩, .error Err.ErrDuplicateBooking])) := by
  constructor
  · intro env0 env s0 s1 A R reg calls h hl
    obtain ⟨ev, _, _, hrow, _, _, hs1⟩ := Book_ok h
    have hmem : reg ∈ s1.registrations := by
      rw [hs1]; simp
    have hm : matchesUserEvent A R StatusConfirmed reg = true := by
      rw [hrow]; simp [matchesUserEvent]
    exact Book_duplicate _ _ _ _ hl (bookAll_registrations_mono calls s1 hmem) hm
  · intro A uuid1 uuid2 e hcap hreg
    have hf : firstEvent ⟨[e], []⟩ e.ID = some e := by simp [firstEvent]
    have hlt : e.Registered < e.Capacity := by omega
    have hB1 := Book_success (Env.ok uuid1) ⟨[e], []⟩ A e.ID
      (by simp [Env.NoFault, Env.ok]) (by simp) (by simp) hf hlt
    have hupd : (updateRegistered ⟨[e], []⟩ e.ID).1.events = [{ e with Registered := 1 }] := by
      have hc : claimable e.ID e = true := by simp [claimable, hlt]
      simp only [updateRegistered, List.map, hc, if_true, hreg, zero_add]
    rw [hupd] at hB1
    have hB2 : Book (Env.ok uuid2)
        ⟨[{ e with Registered := 1 }], [⟨uuid1, A, e.ID, StatusConfirmed⟩]⟩ A e.ID = _ :=
      Book_duplicate _ _ _ _ rfl (List.mem_singleton.mpr rfl) (by simp [matchesUserEvent])
    simp only [Env.ok] at hB1 hB2
    simp only [bookAll, Env.ok, List.nil_append] at hB1 hB2 ⊢
    rw [hB1]
    simp only
    rw [hB2]

/-- C4 witness: `u1` takes the only seat, `u2` is refused, and `u1` booking again is told
it is a duplicate. -/
theorem idempotent_rejection_witness :
    Book (Env.ok "r1") oneSeat "u1" "e1" = (soldOut, .ok ⟨"r1", "u1", "e1", StatusConfirmed⟩) ∧
      Book (Env.ok "r3") (bookAll soldOut [⟨Env.ok "r2", "u2", "e1"⟩]).1 "u1" "e1" =
        ((bookAll soldOut [⟨Env.ok "r2", "u2", "e1"⟩]).1, .error Err.ErrDuplicateBooking) :=
  ⟨by decide,
    idempotent_rejection.1 (Env.ok "r1") (Env.ok "r3") oneSeat soldOut "u1" "e1"
      ⟨"r1", "u1", "e1", StatusConfirmed⟩ [⟨Env.ok "r2", "u2", "e1"⟩] (by decide) (by decide)⟩

/-- C5 (deterministic outcome count): on a fresh event of capacity `C` (counter 0, no
registration), `N >= C` calls by pairwise distinct users, one at a time in any order, with
no failing statement and fresh identifiers: exactly `C` calls succeed, with pairwise
distinct registrations, exactly `N - C` return `ErrEventFull`, the final counter is `C`,
and the event's confirmed registrations are the rows returned to the users who succeeded. -/
theorem deterministic_outcome_count (db : Store) (R : String) (ev : Event) (C : Nat)
    (calls : List Call)
    (hf : firstEvent db R = some ev) (hcap : ev.Capacity = (C : Int)) (hreg : ev.Registered = 0)
    (hnone : ∀ r ∈ db.registrations, r.EventID ≠ R)
    (hcalls : ∀ c ∈ calls, c.eventID = R ∧ c.env.NoFault)
    (husers : (calls.map Call.userID).Nodup)
    (huuids : (calls.map (fun c => c.env.uuid)).Nodup)
    (hids : ∀ c ∈ calls, ∀ r ∈ db.registrations, r.ID ≠ c.env.uuid)
    (hN : C ≤ calls.length) :
    (successes (bookAll db calls).2).length = C ∧
      (successes (bookAll db calls).2).Nodup ∧
      ((successes (bookAll db calls).2).map Registration.ID).Nodup ∧
      (bookAll db calls).2.countP (· = .error Err.ErrEventFull) = calls.length - C ∧
      (firstEvent (bookAll db calls).1 R).map Event.Registered = some (C : Int) ∧
      FindByEvent (bookAll db calls).1 R = successes (bookAll db calls).2 ∧
      (FindByEvent (bookAll db calls).1 R).map Registration.UserID =
        succeededUsers calls (bookAll db calls).2 := by
  obtain ⟨h1, h2, h3⟩ := bookAll_firstServed R calls C db ev hf (by rw [hreg, hcap]; simp)
    hcalls husers huuids (by
      intro c hc r hr
      refine ⟨hids c hc r hr, ?_⟩
      have := hnone r hr
      simp [matchesUserEvent, this])
  have hids2 : ((calls.take C).map Call.row).map Registration.ID =
      (calls.map (fun c => c.env.uuid)).take C := by
    rw [List.map_map, List.map_take]; rfl
  have hnd : (((calls.take C).map Call.row).map Registration.ID).Nodup := by
    rw [hids2]
    exact List.Nodup.sublist (List.take_sublist _ _) huuids
  have hfind : FindByEvent (bookAll db calls).1 R = (calls.take C).map Call.row := by
    simp only [FindByEvent, h2, List.filter_append]
    have ha : db.registrations.filter
        (fun r => r.EventID == R && r.Status == StatusConfirmed) = [] := by
      rw [List.filter_eq_nil_iff]
      intro r hr
      simp [hnone r hr]
    have hb : ((calls.take C).map Call.row).filter
        (fun r => r.EventID == R && r.Status == StatusConfirmed) = (calls.take C).map Call.row := by
      rw [List.filter_eq_self]
      intro r hr
      obtain ⟨c, hc, hrow⟩ := List.mem_map.mp hr
      have hcR := (hcalls c (List.mem_of_mem_take hc)).1
      rw [← hrow]
      simp [Call.row, hcR]
    rw [ha, hb, List.nil_append]
  rw [h1, successes_firstServed, succeededUsers_firstServed, countFull_firstServed, hfind, h3]
  refine ⟨?_, List.Nodup.of_map _ hnd, hnd, rfl, ?_, rfl, ?_⟩
  · simp [hN]
  · rw [hreg, Nat.min_eq_left hN]; simp
  · rw [List.map_map]; rfl

/-- C5 witness: three users, two seats. -/
theorem deterministic_outcome_count_witness :
    (successes (bookAll twoEvents
        [⟨Env.ok "r1", "u1", "e2"⟩, ⟨Env.ok "r2", "u2", "e2"⟩, ⟨Env.ok "r3", "u3", "e2"⟩]).2).length
      = 2 ∧
    (bookAll twoEvents
        [⟨Env.ok "r1", "u1", "e2"⟩, ⟨Env.ok "r2", "u2", "e2"⟩, ⟨Env.ok "r3", "u3", "e2"⟩]).2.countP
      (· = .error Err.ErrEventFull) = 3 - 2 :=
  have h := deterministic_outcome_count twoEvents "e2" duoEvent 2
    [⟨Env.ok "r1", "u1", "e2"⟩, ⟨Env.ok "r2", "u2", "e2"⟩, ⟨Env.ok "r3", "u3", "e2"⟩]
    (by decide) (by decide) (by decide) (by decide) (by decide) (by decide) (by decide)
    (by decide) (by decide)
  ⟨h.1, h.2.2.2.1⟩

/-- C6 (success postcondition): if `Book(A, R)` returns a registration without error, then
the counter of `R` is exactly one more than before, exactly one row has been appended to
the registrations, that row has `UserID = A`, `EventID = R`, `Status = confirmed`, and it
is the registration returned. -/
theorem success_postcondition (env : Env) (db db2 : Store) (A R : String) (reg : Registration)
    (h : Book env db A R = (db2, .ok reg)) :
    (∃ ev, firstEvent db R = some ev ∧
      firstEvent db2 R = some { ev with Registered := ev.Registered + 1 }) ∧
    db2.registrations = db.registrations ++ [reg] ∧
    reg.UserID = A ∧ reg.EventID = R ∧ reg.Status = StatusConfirmed := by
  obtain ⟨ev, hf, hlt, hrow, _, _, hdb2⟩ := Book_ok h
  refine ⟨⟨ev, hf, ?_⟩, ?_, ?_, ?_, ?_⟩
  · rw [hdb2]; exact firstEvent_after_claim _ hf hlt
  · rw [hdb2]
  · rw [hrow]
  · rw [hrow]
  · rw [hrow]

/-- C6 witness: the first booking of the two-seat event. -/
theorem success_postcondition_witness :
    Book (Env.ok "r1") twoEvents "u1" "e2" =
        (⟨[soloEvent, { duoEvent with Registered := 1 }], [⟨"r1", "u1", "e2", StatusConfirmed⟩]⟩,
          .ok ⟨"r1", "u1", "e2", StatusConfirmed⟩) ∧
      (⟨[soloEvent, { duoEvent with Registered := 1 }],
          [⟨"r1", "u1", "e2", StatusConfirmed⟩]⟩ : Store).registrations =
        twoEvents.registrations ++ [⟨"r1", "u1", "e2", StatusConfirmed⟩] :=
  ⟨by decide, (success_postcondition (Env.ok "r1") twoEvents _ "u1" "e2" _ (by decide)).2.1⟩

/-- C7 (full event): for an existing event `R` with `registered >= capacity` and a user `A`
without a confirmed registration for it, when the lookup, the begin and the locking read
run, `Book(A, R)` returns `ErrEventFull` itself (so `errors.Is` recognises it), no
registration, and leaves the store unchanged. -/
theorem full_event (env : Env) (db : Store) (A R : String) (ev : Event)
    (hl : env.lookupErr = none) (hb : env.beginErr = none) (hk : env.lockErr = none)
    (hf : firstEvent db R = some ev) (hfull : ev.Registered ≥ ev.Capacity)
    (hnone : ∀ r ∈ db.registrations, ¬ (r.UserID = A ∧ r.EventID = R ∧ r.Status = StatusConfirmed)) :
    Book env db A R = (db, .error Err.ErrEventFull) ∧
      errorsIs Err.ErrEventFull Err.ErrEventFull = true ∧
      errorsIs Err.ErrEventFull Err.ErrDuplicateBooking = false := by
  refine ⟨Book_full env db A R hl hb hk ?_ hf hfull, rfl, rfl⟩
  rw [List.find?_eq_none]
  intro r hr
  have := hnone r hr
  simpa [matchesUserEvent, and_assoc] using this

/-- C7 witness: a second user on the sold-out one-seat event. -/
theorem full_event_witness :
    Book (Env.ok "r2") soldOut "u2" "e1" = (soldOut, .error Err.ErrEventFull) :=
  (full_event (Env.ok "r2") soldOut "u2" "e1" { soloEvent with Registered := 1 }
    (by decide) (by decide) (by decide) (by decide) (by decide) (by decide)).1

/-- C8 (atomicity on failure): if the lookup finds nothing, the transaction begins,
`IncrementRegistered` grants the seat (so `R` had `registered < capacity`, and inside the
transaction the counter is one higher) and the insert then fails, `Book` returns the
insert's error, no registration, and the store is exactly the store before the call. -/
theorem atomicity_on_failure (env : Env) (db tx1 : Store) (A R : String) (e0 err : Err)
    (e1 : Event)
    (hlook : FindByUserAndEvent env db A R = .error e0)
    (hnf : errorsIs e0 Err.ErrRecordNotFound = true)
    (hb : env.beginErr = none)
    (hinc : IncrementRegistered env db R = .ok (tx1, e1, true))
    (hcreate : Create env tx1 ⟨"", A, R, StatusConfirmed⟩ = .error err) :
    Book env db A R = (db, .error err) ∧
      ∃ ev, firstEvent db R = some ev ∧ ev.Registered < ev.Capacity ∧
        firstEvent tx1 R = some { ev with Registered := ev.Registered + 1 } := by
  refine ⟨Book_insert_fails hlook hnf hb hinc hcreate, ?_⟩
  obtain ⟨ev, hf, hlt, htx1, _⟩ := IncrementRegistered_granted hinc
  refine ⟨ev, hf, hlt, ?_⟩
  rw [htx1]
  exact firstEvent_after_claim (updateRegistered db R).1.registrations hf hlt

/-- C8 witness: the insert fails with a disk error after the seat was granted. -/
theorem atomicity_on_failure_witness :
    Book insertFails oneSeat "u1" "e1" = (oneSeat, .error (Err.storage "disk full")) :=
  (atomicity_on_failure insertFails oneSeat ⟨[{ soloEvent with Registered := 1 }], []⟩
    "u1" "e1" Err.ErrRecordNotFound (Err.storage "disk full") { soloEvent with Registered := 1 }
    (by decide) (by decide) (by decide) (by decide) (by decide)).1

/-- C9, as stated, fails: the lookup finds nothing, the seat is granted, the insert is
rejected by the unique index on (user, event, status), and `Book` returns that storage
error, for which `errors.Is(err, ErrDuplicateBooking)` is false. -/
theorem constraint_violation_counterexample :
    FindByUserAndEvent insertRaces oneSeat "u1" "e1" = .error Err.ErrRecordNotFound ∧
      Book insertRaces oneSeat "u1" "e1" =
        (oneSeat, .error (Err.uniqueViolation "idx_user_event_status")) ∧
      errorsIs (Err.uniqueViolation "idx_user_event_status") Err.ErrDuplicateBooking = false := by
  decide

/-- C9, amended (constraint violation): if the duplicate lookup finds nothing and the
insert then fails with a uniqueness violation, `Book` returns that violation as it is: an
error that is neither `ErrDuplicateBooking` nor `ErrEventFull`, which the handler answers
with status 500; the store is unchanged. -/
theorem constraint_violation_unmapped (env : Env) (db tx1 : Store) (A R index : String)
    (e0 : Err) (e1 : Event)
    (hlook : FindByUserAndEvent env db A R = .error e0)
    (hnf : errorsIs e0 Err.ErrRecordNotFound = true)
    (hb : env.beginErr = none)
    (hinc : IncrementRegistered env db R = .ok (tx1, e1, true))
    (hcreate : Create env tx1 ⟨"", A, R, StatusConfirmed⟩ = .error (Err.uniqueViolation index)) :
    Book env db A R = (db, .error (Err.uniqueViolation index)) ∧
      errorsIs (Err.uniqueViolation index) Err.ErrDuplicateBooking = false ∧
      errorsIs (Err.uniqueViolation index) Err.ErrEventFull = false ∧
      BookEventStatus (.error (Err.uniqueViolation index)) = 500 :=
  ⟨Book_insert_fails hlook hnf hb hinc hcreate, by simp [errorsIs], by simp [errorsIs],
    by simp [BookEventStatus, errorsIs]⟩

/-- C9 witness: the insert is rejected by the unique index after the seat was granted. -/
theorem constraint_violation_unmapped_witness :
    Book insertRaces oneSeat "u1" "e1" =
        (oneSeat, .error (Err.uniqueViolation "idx_user_event_status")) ∧
      BookEventStatus (.error (Err.uniqueViolation "idx_user_event_status")) = 500 :=
  have h := constraint_violation_unmapped insertRaces oneSeat
    ⟨[{ soloEvent with Registered := 1 }], []⟩ "u1" "e1" "idx_user_event_status"
    Err.ErrRecordNotFound { soloEvent with Registered := 1 }
    (by decide) (by decide) (by decide) (by decide) (by decide)
  ⟨h.1, h.2.2.2⟩

/-- C10 (zero-capacity boundary): for an event `R` with capacity 0, counter 0 and no
registration, `Book(A, R)` returns `ErrEventFull` and leaves the store unchanged whenever
the lookup, the begin and the locking read run; and in every sequence of `Book` calls, on
any events and with any statement failing, no call on `R` ever succeeds (each of them whose
three statements run returns `ErrEventFull`). -/
theorem zero_capacity_boundary (db : Store) (R : String) (ev : Event)
    (hf : firstEvent db R = some ev) (hcap : ev.Capacity = 0) (hreg : ev.Registered = 0)
    (hnone : ∀ r ∈ db.registrations, r.EventID ≠ R) :
    (∀ (env : Env) (A : String),
      env.lookupErr = none → env.beginErr = none → env.lockErr = none →
      Book env db A R = (db, .error Err.ErrEventFull)) ∧
    (∀ calls : List Call, ∀ p ∈ calls.zip (bookAll db calls).2, p.1.eventID = R →
      (∀ reg, p.2 ≠ .ok reg) ∧
      (p.1.env.lookupErr = none → p.1.env.beginErr = none → p.1.env.lockErr = none →
        p.2 = .error Err.ErrEventFull)) := by
  have hfull : ev.Registered ≥ ev.Capacity := by omega
  have hfind : ∀ (s : Store) (A : String), (∀ r ∈ s.registrations, r.EventID ≠ R) →
      s.registrations.find? (matchesUserEvent A R StatusConfirmed) = none := by
    intro s A hs
    rw [List.find?_eq_none]
    intro r hr
    simp [matchesUserEvent, hs r hr]
  constructor
  · intro env A hl hb hk
    exact Book_full env db A R hl hb hk (hfind db A hnone) hf hfull
  · intro calls
    have h := bookAll_forall
      (fun s => firstEvent s R = some ev ∧ ∀ r ∈ s.registrations, r.EventID ≠ R)
      (fun c r => c.eventID = R →
        (∀ reg, r ≠ .ok reg) ∧
        (c.env.lookupErr = none → c.env.beginErr = none → c.env.lockErr = none →
          r = .error Err.ErrEventFull))
      (by
        intro c s hs
        obtain ⟨hsf, hsr⟩ := hs
        rcases Book_cases c.env s c.userID c.eventID with ⟨err, hB⟩ | ⟨db2, row, hB⟩
        · rw [hB]
          refine ⟨⟨hsf, hsr⟩, ?_⟩
          intro hR
          refine ⟨fun reg hreg2 => (by cases hreg2), ?_⟩
          intro hl hb hk
          have hB2 := Book_full c.env s c.userID R hl hb hk (hfind s c.userID hsr) hsf hfull
          rw [hR] at hB
          rw [hB2] at hB
          injection hB with _ h2
          simp only
          rw [← h2]
        · obtain ⟨ev2, hf2, hlt2, hrow, _, _, hdb2⟩ := Book_ok hB
          have hne : c.eventID ≠ R := by
            intro hR
            rw [hR, hsf] at hf2
            injection hf2 with hf2
            rw [← hf2] at hlt2
            omega
          rw [hB]
          refine ⟨And.intro ?_ ?_, fun hR => absurd hR hne⟩
          · rw [hdb2, firstEvent_after_other _ hne]; exact hsf
          · rw [hdb2]
            intro r hr
            simp only [List.mem_append, List.mem_singleton] at hr
            rcases hr with hr | hr
            · exact hsr r hr
            · rw [hr, hrow]; exact hne)
      calls db ⟨hf, hnone⟩
    exact h.2

/-- C10 witness: a booking of the event created without seats. -/
theorem zero_capacity_boundary_witness :
    Book (Env.ok "r1") closedStore "u1" "e0" = (closedStore, .error Err.ErrEventFull) :=
  (zero_capacity_boundary closedStore "e0" emptyEvent (by decide) (by decide) (by decide)
    (by decide)).1 (Env.ok "r1") "u1" (by decide) (by decide) (by decide)

/-! ## The traced service -/

/-- The traced transaction body returns what the transaction body returns. -/
theorem bookTxTraced_result (env : Env) (userID eventID : String) (tx : Store) :
    (bookTxTraced env userID eventID tx).2 = bookTx env userID eventID tx := by
  unfold bookTxTraced bookTx
  split
  · rfl
  · split <;> rfl

/-- The traced transaction returns what the transaction returns, when the traced body
returns what the body returns. -/
theorem TransactionTraced_result {α : Type} (env : Env) (db : Store)
    (fc : Store → Except Err (Store × α))
    (fcT : Store → List Invocation × Except Err (Store × α))
    (h : ∀ tx, (fcT tx).2 = fc tx) :
    (TransactionTraced env db fcT).2 = Transaction env db fc := by
  unfold TransactionTraced Transaction
  cases env.beginErr with
  | some err => rfl
  | none =>
    simp only
    rw [← h db]
    rcases fcT db with ⟨log, r⟩
    cases r with
    | error err => rfl
    | ok p =>
      obtain ⟨tx, a⟩ := p
      simp only
      cases env.commitErr <;> rfl

/-- The traced `Book` returns the store and the result `Book` returns. -/
theorem BookTraced_result (env : Env) (db : Store) (userID eventID : String) :
    (BookTraced env db userID eventID).2 = Book env db userID eventID := by
  unfold BookTraced Book
  split
  · rfl
  · split
    · rfl
    · exact TransactionTraced_result env db _ _ (bookTxTraced_result env userID eventID)

/-! ## Rows before and after the conditional update -/

/-- Each row after the conditional update is related to the row before it at the same
position, for every relation that holds of a row and itself and of a claimable row and
its increment. -/
theorem updateRegistered_rel (tx : Store) (eventID : String) (Q : Event → Event → Prop)
    (hsame : ∀ e, Q e e)
    (hinc : ∀ e, claimable eventID e = true → Q e { e with Registered := e.Registered + 1 }) :
    List.Forall₂ Q tx.events (updateRegistered tx eventID).1.events := by
  simp only [updateRegistered]
  rw [List.forall₂_map_right_iff, List.forall₂_same]
  intro e _
  by_cases hc : claimable eventID e = true
  · simp only [hc, if_true]; exact hinc e hc
  · simp only [hc, if_false]; exact hsame e

/-- Whatever `incrementAfterRead` returns, each row of the store it leaves is related to
the row before it, for every such relation. -/
theorem incrementAfterRead_rel {env : Env} {e e1 : Event} {tx tx1 : Store} {eventID : String}
    {g : Bool} (Q : Event → Event → Prop)
    (hsame : ∀ x, Q x x)
    (hinc : ∀ x, claimable eventID x = true → Q x { x with Registered := x.Registered + 1 })
    (h : incrementAfterRead env e tx eventID = .ok (tx1, e1, g)) :
    List.Forall₂ Q tx.events tx1.events := by
  have hrefl : List.Forall₂ Q tx.events tx.events := List.forall₂_same.mpr (fun x _ => hsame x)
  unfold incrementAfterRead at h
  split at h
  · injection h with h
    injection h with h1 _
    rw [← h1]; exact hrefl
  · split at h
    · cases h
    · simp only at h
      split at h
      · injection h with h
        injection h with h1 _
        rw [← h1]; exact updateRegistered_rel tx eventID Q hsame hinc
      · injection h with h
        injection h with h1 _
        rw [← h1]; exact updateRegistered_rel tx eventID Q hsame hinc

/-- Each row of `events` after a call of `Book` is related to the row before it at the
same position, for every such relation. -/
theorem Book_rel (env : Env) (db : Store) (userID eventID : String) (Q : Event → Event → Prop)
    (hsame : ∀ x, Q x x)
    (hinc : ∀ x, claimable eventID x = true → Q x { x with Registered := x.Registered + 1 }) :
    List.Forall₂ Q db.events (Book env db userID eventID).1.events := by
  rcases Book_cases env db userID eventID with ⟨err, h⟩ | ⟨db2, row, h⟩
  · rw [h]; exact List.forall₂_same.mpr (fun x _ => hsame x)
  · obtain ⟨ev, _, _, _, _, _, hdb2⟩ := Book_ok h
    rw [h, hdb2]
    exact updateRegistered_rel db eventID Q hsame hinc

/-- When the event is missing and the lookup, the begin and the locking read run, `Book`
hands back the not-found error of `IncrementRegistered`. -/
theorem Book_missing (env : Env) (db : Store) (userID eventID : String)
    (hl : env.lookupErr = none) (hb : env.beginErr = none) (hk : env.lockErr = none)
    (hnone : db.registrations.find? (matchesUserEvent userID eventID StatusConfirmed) = none)
    (hf : firstEvent db eventID = none) :
    Book env db userID eventID =
      (db, .error (Err.wrap "eventRepo.IncrementRegistered lock" Err.ErrRecordNotFound)) := by
  simp [Book, FindByUserAndEvent, hl, hnone, errorsIs, Transaction, hb, bookTx,
    IncrementRegistered, hk, hf]

/-- The lookup finds nothing exactly when no row is a confirmed row of the user for the
event. -/
theorem find_none_of_not_held {db : Store} {userID eventID : String}
    (hnone : ∀ r ∈ db.registrations,
      ¬ (r.UserID = userID ∧ r.EventID = eventID ∧ r.Status = StatusConfirmed)) :
    db.registrations.find? (matchesUserEvent userID eventID StatusConfirmed) = none := by
  rw [List.find?_eq_none]
  intro r hr
  have := hnone r hr
  simpa [matchesUserEvent, and_assoc] using this

/-! ## The claims, continued -/

/-- C11 (missing event): for an event id `R` with no row in `events` and a user `A` without
a confirmed registration referencing it, when the lookup, the begin and the locking read
run, `Book(A, R)` returns the error of `IncrementRegistered`, which is neither
`ErrEventFull` nor `ErrDuplicateBooking`, wraps gorm's not-found error and is answered
with status 500; it returns no registration and leaves the store unchanged. -/
theorem missing_event (env : Env) (db : Store) (A R : String)
    (hl : env.lookupErr = none) (hb : env.beginErr = none) (hk : env.lockErr = none)
    (hf : firstEvent db R = none)
    (hnone : ∀ r ∈ db.registrations,
      ¬ (r.UserID = A ∧ r.EventID = R ∧ r.Status = StatusConfirmed)) :
    ∃ err, Book env db A R = (db, .error err) ∧
      errorsIs err Err.ErrEventFull = false ∧
      errorsIs err Err.ErrDuplicateBooking = false ∧
      errorsIs err Err.ErrRecordNotFound = true ∧
      BookEventStatus (.error err) = 500 :=
  ⟨Err.wrap "eventRepo.IncrementRegistered lock" Err.ErrRecordNotFound,
    Book_missing env db A R hl hb hk (find_none_of_not_held hnone) hf,
    by simp [errorsIs], by simp [errorsIs], by simp [errorsIs],
    by simp [BookEventStatus, errorsIs]⟩

/-- C11 witness: a booking of an event id that is not in the store. -/
theorem missing_event_witness :
    ∃ err, Book (Env.ok "r9") busyStore "u1" "ghost" = (busyStore, .error err) ∧
      errorsIs err Err.ErrEventFull = false ∧
      errorsIs err Err.ErrDuplicateBooking = false ∧
      errorsIs err Err.ErrRecordNotFound = true ∧
      BookEventStatus (.error err) = 500 :=
  missing_event (Env.ok "r9") busyStore "u1" "ghost" (by decide) (by decide) (by decide)
    (by decide) (by decide)

/-- C12 (atomic claim, full at read time): when the locking read of `IncrementRegistered`
returns a row with `registered >= capacity`, the call returns `granted = false` with no
error, hands back the row as read, and the store is as before: no update is run, whatever
the store holds and whether or not the update would fail. -/
theorem atomic_claim_full (env : Env) (tx : Store) (R : String) (ev : Event)
    (hk : env.lockErr = none) (hf : firstEvent tx R = some ev)
    (hfull : ev.Registered ≥ ev.Capacity) :
    IncrementRegistered env tx R = .ok (tx, ev, false) ∧
      ∀ other : Store, incrementAfterRead env ev other R = .ok (other, ev, false) := by
  constructor
  · simp [IncrementRegistered, hk, hf, incrementAfterRead, hfull]
  · intro other
    simp [incrementAfterRead, hfull]

/-- C12 witness: the claim on the sold-out one-seat event. -/
theorem atomic_claim_full_witness :
    IncrementRegistered (Env.ok "r9") soldOut "e1" =
      .ok (soldOut, { soloEvent with Registered := 1 }, false) :=
  (atomic_claim_full (Env.ok "r9") soldOut "e1" { soloEvent with Registered := 1 }
    (by decide) (by decide) (by decide)).1

/-- A property carried from each row to the row at the same position holds of all rows
after when it holds of all rows before. -/
theorem forall₂_transport (P : Event → Prop) {l l2 : List Event}
    (h : List.Forall₂ (fun x y => P x → P y) l l2) (hl : ∀ x ∈ l, P x) : ∀ y ∈ l2, P y := by
  induction h with
  | nil => intro y hy; cases hy
  | cons hxy _ ih =>
    intro y hy
    rcases List.mem_cons.mp hy with hy | hy
    · rw [hy]; exact hxy (hl _ (List.mem_cons_self _ _))
    · exact ih (fun x hx => hl x (List.mem_cons_of_mem _ hx)) y hy

/-- C13 (atomic claim, stale read): with the row as read (`e`) and the store the
conditional update runs against (`tx`) taken as independent values, (1) if every stored
row has `registered <= capacity`, so has every row of the store the call leaves; and (2)
if the read shows `registered < capacity` while the stored row of the event is full and
the update statement runs, the update affects zero rows, the store is unchanged, and the
call returns `granted = false` with no error. -/
theorem atomic_claim_stale_read (env : Env) (e : Event) (tx : Store) (R : String) :
    (∀ (tx1 : Store) (e1 : Event) (g : Bool), WithinCapacity tx →
      incrementAfterRead env e tx R = .ok (tx1, e1, g) → WithinCapacity tx1) ∧
    (env.updateErr = none → e.Registered < e.Capacity →
      (∀ x ∈ tx.events, x.ID = R → x.Registered ≥ x.Capacity) →
      (updateRegistered tx R).2 = 0 ∧ (updateRegistered tx R).1 = tx ∧
        incrementAfterRead env e tx R = .ok (tx, e, false)) := by
  constructor
  · intro tx1 e1 g hw h
    have hrel := incrementAfterRead_rel (fun x y => x.Registered ≤ x.Capacity →
        y.Registered ≤ y.Capacity) (fun _ hx => hx)
      (fun x hc _ => by
        simp only [claimable, Bool.and_eq_true, decide_eq_true_eq] at hc
        simp only; omega) h
    exact forall₂_transport (fun x => x.Registered ≤ x.Capacity) hrel hw
  · intro hu hlt hfull
    have hz : (updateRegistered tx R).2 = 0 := by
      simp only [updateRegistered, List.countP_eq_zero]
      intro x hx
      simp only [claimable, Bool.and_eq_true, beq_iff_eq, decide_eq_true_eq, not_and, not_lt]
      intro hid
      exact hfull x hx hid
    have hsame := updateRegistered_of_count_zero tx R hz
    refine ⟨hz, hsame, ?_⟩
    have hnf : ¬ e.Registered ≥ e.Capacity := not_le.mpr hlt
    simp only [incrementAfterRead, hnf, if_false, hu, hz, hsame, beq_self_eq_true, if_true]

/-- C13 witness: the read saw the seat free, the stored row is sold out. -/
theorem atomic_claim_stale_read_witness :
    WithinCapacity (updateRegistered soldOut "e1").1 ∧
      incrementAfterRead (Env.ok "r9") soloEvent soldOut "e1" = .ok (soldOut, soloEvent, false) :=
  have h := atomic_claim_stale_read (Env.ok "r9") soloEvent soldOut "e1"
  ⟨h.1 (updateRegistered soldOut "e1").1 soloEvent false (by decide) (by decide),
    (h.2 (by decide) (by decide) (by decide)).2.2⟩

/-- C15 (monotone counter): after any `Book` call, with any outcome, every row of `events`
has a counter at least the one it had and at most one higher; so has the row read for any
event `R`, whether the call was on `R` or not.  The same holds of the store
`IncrementRegistered` leaves, even after a stale read, and `Create` leaves the events as
they are: no operation of the booking core decreases a counter. -/
theorem monotone_counter (env : Env) (db : Store) (userID eventID : String) :
    List.Forall₂ (fun e e2 => e.Registered ≤ e2.Registered ∧ e2.Registered ≤ e.Registered + 1)
        db.events (Book env db userID eventID).1.events ∧
      (∀ (R : String) (ev : Event), firstEvent db R = some ev →
        ∃ ev2, firstEvent (Book env db userID eventID).1 R = some ev2 ∧
          ev.Registered ≤ ev2.Registered ∧ ev2.Registered ≤ ev.Registered + 1) ∧
      (∀ (e e1 : Event) (tx1 : Store) (g : Bool),
        incrementAfterRead env e db eventID = .ok (tx1, e1, g) →
        List.Forall₂ (fun x x2 => x.Registered ≤ x2.Registered ∧ x2.Registered ≤ x.Registered + 1)
          db.events tx1.events) ∧
      (∀ (reg row : Registration) (tx2 : Store),
        Create env db reg = .ok (tx2, row) → tx2.events = db.events) := by
  refine ⟨?_, ?_, ?_, ?_⟩
  · exact Book_rel env db userID eventID _ (fun x => ⟨le_refl _, by omega⟩)
      (fun x _ => ⟨by simp only; omega, by simp only; omega⟩)
  · intro R ev hf
    rcases Book_cases env db userID eventID with ⟨err, h⟩ | ⟨db2, row, h⟩
    · rw [h]; exact ⟨ev, hf, le_refl _, by omega⟩
    · obtain ⟨_, _, _, _, _, _, hdb2⟩ := Book_ok h
      rw [h, hdb2]
      have hfe : firstEvent
          ⟨(updateRegistered db eventID).1.events, db.registrations ++ [row]⟩ R =
          firstEvent (updateRegistered db eventID).1 R := rfl
      simp only
      rw [hfe, firstEvent_updateRegistered, hf]
      simp only [Option.map_some']
      by_cases hc : claimable eventID ev = true
      · simp only [hc, if_true]
        exact ⟨_, rfl, by simp only; omega, by simp only; omega⟩
      · simp only [hc, if_false]
        exact ⟨ev, rfl, le_refl _, by omega⟩
  · intro e e1 tx1 g h
    exact incrementAfterRead_rel _ (fun x => ⟨le_refl _, by omega⟩)
      (fun x _ => ⟨by simp only; omega, by simp only; omega⟩) h
  · intro reg row tx2 h
    obtain ⟨_, _, _, _, htx2⟩ := Create_ok h
    rw [htx2]

/-- C15 witness: the counter of the two-seat event across a successful booking of it. -/
theorem monotone_counter_witness :
    ∃ ev2, firstEvent (Book (Env.ok "r3") busyStore "u2" "e2").1 "e2" = some ev2 ∧
      ({ duoEvent with Registered := 1 } : Event).Registered ≤ ev2.Registered ∧
      ev2.Registered ≤ ({ duoEvent with Registered := 1 } : Event).Registered + 1 :=
  (monotone_counter (Env.ok "r3") busyStore "u2" "e2").2.1 "e2"
    { duoEvent with Registered := 1 } (by decide)

/-- C18 (frame): after any `Book(A, R)`, with any outcome, every row of `events` keeps its
identifier, capacity and other columns, a row of an event other than `R` is unchanged
(its counter included), and every registration row from before the call is still there,
unchanged and in place: the registrations after are those before followed by the rows
added. -/
theorem frame (env : Env) (db : Store) (A R : String) :
    List.Forall₂ (fun e e2 => e2.ID = e.ID ∧ e2.Title = e.Title ∧
          e2.Description = e.Description ∧ e2.Capacity = e.Capacity ∧
          e2.OrganizerID = e.OrganizerID ∧ (e.ID ≠ R → e2 = e))
        db.events (Book env db A R).1.events ∧
      (∃ added, (Book env db A R).1.registrations = db.registrations ++ added ∧
        added.length ≤ 1) ∧
      (∀ other : String, other ≠ R →
        firstEvent (Book env db A R).1 other = firstEvent db other) := by
  refine ⟨?_, ?_, ?_⟩
  · refine Book_rel env db A R _ (fun x => ⟨rfl, rfl, rfl, rfl, rfl, fun _ => rfl⟩) ?_
    intro x hc
    refine ⟨rfl, rfl, rfl, rfl, rfl, ?_⟩
    intro hne
    simp only [claimable, Bool.and_eq_true, beq_iff_eq] at hc
    exact absurd hc.1 hne
  · rcases Book_cases env db A R with ⟨err, h⟩ | ⟨db2, row, h⟩
    · rw [h]; exact ⟨[], by simp, by simp⟩
    · obtain ⟨_, _, _, _, _, _, hdb2⟩ := Book_ok h
      rw [h, hdb2]; exact ⟨[row], rfl, by simp⟩
  · intro other hne
    rcases Book_cases env db A R with ⟨err, h⟩ | ⟨db2, row, h⟩
    · rw [h]
    · obtain ⟨_, _, _, _, _, _, hdb2⟩ := Book_ok h
      rw [h, hdb2]
      exact firstEvent_after_other _ (fun hh => hne hh.symm)

/-- C18 witness: the row of the one-seat event across a booking of the two-seat event. -/
theorem frame_witness :
    firstEvent (Book (Env.ok "r3") busyStore "u2" "e2").1 "e1" = firstEvent busyStore "e1" :=
  (frame (Env.ok "r3") busyStore "u2" "e2").2.2 "e1" (by decide)

/-- With the lookup running, a user who holds a confirmed row gets `ErrDuplicateBooking`:
the `any` form of `Book_duplicate`. -/
theorem Book_duplicate_of_any (env : Env) (db : Store) (userID eventID : String)
    (hl : env.lookupErr = none)
    (hheld : db.registrations.any (matchesUserEvent userID eventID StatusConfirmed) = true) :
    Book env db userID eventID = (db, .error Err.ErrDuplicateBooking) := by
  obtain ⟨r, hr, hm⟩ := List.any_eq_true.mp hheld
  exact Book_duplicate env db userID eventID hl hr hm

/-- C16 (outcome characterisation): for an existing event `R`, with no statement failing
and a fresh identifier, `Book(A, R)` succeeds if and only if `A` holds no confirmed
registration for `R` and `R` has `registered < capacity`; it returns `ErrDuplicateBooking`
if and only if `A` holds one; it returns `ErrEventFull` if and only if `A` holds none and
`registered >= capacity`; and one of the three outcomes occurs. -/
theorem outcome_characterisation (env : Env) (db : Store) (A R : String) (ev : Event)
    (henv : env.NoFault)
    (hfresh : db.registrations.any (fun r => r.ID == env.uuid) = false)
    (hf : firstEvent db R = some ev) :
    ((∃ reg, (Book env db A R).2 = .ok reg) ↔
        (db.registrations.any (matchesUserEvent A R StatusConfirmed) = false ∧
          ev.Registered < ev.Capacity)) ∧
      ((Book env db A R).2 = .error Err.ErrDuplicateBooking ↔
        db.registrations.any (matchesUserEvent A R StatusConfirmed) = true) ∧
      ((Book env db A R).2 = .error Err.ErrEventFull ↔
        (db.registrations.any (matchesUserEvent A R StatusConfirmed) = false ∧
          ev.Registered ≥ ev.Capacity)) ∧
      ((∃ reg, (Book env db A R).2 = .ok reg) ∨
        (Book env db A R).2 = .error Err.ErrDuplicateBooking ∨
        (Book env db A R).2 = .error Err.ErrEventFull) := by
  cases hheld : db.registrations.any (matchesUserEvent A R StatusConfirmed) with
  | true =>
    rw [Book_duplicate_of_any env db A R henv.1 hheld]
    simp
  | false =>
    have hfind : db.registrations.find? (matchesUserEvent A R StatusConfirmed) = none := by
      rw [List.find?_eq_none]
      intro r hr
      have := List.any_eq_false.mp hheld r hr
      exact this
    by_cases hlt : ev.Registered < ev.Capacity
    · rw [Book_success env db A R henv hheld hfresh hf hlt]
      have hnge : ¬ ev.Registered ≥ ev.Capacity := not_le.mpr hlt
      simp [hlt, hnge]
    · have hge : ev.Registered ≥ ev.Capacity := not_lt.mp hlt
      rw [Book_full env db A R henv.1 henv.2.1 henv.2.2.1 hfind hf hge]
      simp [hlt, hge]

/-- C16 witness: a new user on the half-booked two-seat event. -/
theorem outcome_characterisation_witness :
    ((∃ reg, (Book (Env.ok "r3") busyStore "u2" "e2").2 = .ok reg) ↔
        (busyStore.registrations.any (matchesUserEvent "u2" "e2" StatusConfirmed) = false ∧
          ({ duoEvent with Registered := 1 } : Event).Registered <
            ({ duoEvent with Registered := 1 } : Event).Capacity)) :=
  (outcome_characterisation (Env.ok "r3") busyStore "u2" "e2" { duoEvent with Registered := 1 }
    (by decide) (by decide) (by decide)).1

/-- C17 (duplicate takes precedence over full): when `A` holds a confirmed registration for
`R`, `R` has `registered >= capacity` and the lookup runs, `Book(A, R)` returns
`ErrDuplicateBooking`, which is not `ErrEventFull`; the only call it makes is the lookup
(neither `db.Transaction` nor `IncrementRegistered`), whatever the other statements would
do; and the store is unchanged.  A user without such a row gets `ErrEventFull` from the
same store. -/
theorem duplicate_precedes_full (env : Env) (db : Store) (A R : String) (ev : Event)
    (r : Registration)
    (hl : env.lookupErr = none) (hr : r ∈ db.registrations)
    (hheld : r.UserID = A ∧ r.EventID = R ∧ r.Status = StatusConfirmed)
    (hf : firstEvent db R = some ev) (hfull : ev.Registered ≥ ev.Capacity) :
    Book env db A R = (db, .error Err.ErrDuplicateBooking) ∧
      BookTraced env db A R =
        ([Invocation.FindByUserAndEvent], db, .error Err.ErrDuplicateBooking) ∧
      errorsIs Err.ErrDuplicateBooking Err.ErrEventFull = false ∧
      (∀ (B uuid : String),
        (∀ x ∈ db.registrations,
          ¬ (x.UserID = B ∧ x.EventID = R ∧ x.Status = StatusConfirmed)) →
        Book (Env.ok uuid) db B R = (db, .error Err.ErrEventFull)) := by
  have hm : matchesUserEvent A R StatusConfirmed r = true := by
    simp [matchesUserEvent, hheld.1, hheld.2.1, hheld.2.2]
  have hB := Book_duplicate env db A R hl hr hm
  refine ⟨hB, ?_, rfl, ?_⟩
  · have hres := BookTraced_result env db A R
    have hlog : (BookTraced env db A R).1 = [Invocation.FindByUserAndEvent] := by
      unfold BookTraced FindByUserAndEvent
      rw [hl]
      cases hfind : db.registrations.find? (matchesUserEvent A R StatusConfirmed) with
      | some reg => rfl
      | none => exact absurd hm (List.find?_eq_none.mp hfind r hr)
    rw [hB] at hres
    rw [← hlog, ← hres]
  · intro B uuid hB2
    exact Book_full (Env.ok uuid) db B R rfl rfl rfl (find_none_of_not_held hB2) hf hfull

/-- C17 witness: the holder of the only seat books again, with every statement of the
transaction set to fail. -/
theorem duplicate_precedes_full_witness :
    BookTraced
        { Env.ok "r9" with beginErr := some (Err.storage "down"),
                           lockErr := some (Err.storage "down") }
        soldOut "u1" "e1" =
      ([Invocation.FindByUserAndEvent], soldOut, .error Err.ErrDuplicateBooking) :=
  (duplicate_precedes_full
    { Env.ok "r9" with beginErr := some (Err.storage "down"),
                       lockErr := some (Err.storage "down") }
    soldOut "u1" "e1" { soloEvent with Registered := 1 } ⟨"r1", "u1", "e1", StatusConfirmed⟩
    (by decide) (by decide) (by decide) (by decide) (by decide)).2.1

end Eventregistration
